import Mathlib

/-!
Verification of the ELF object writer `cinderx/Jit/elf.cpp`.

The file shallowly embeds the source: `uint64_t` arithmetic is `Nat`
with explicit `% 2 ^ 64` at every operation that the C++ performs on a
64-bit integer, container sizes are `List.length`, fatal `JIT_CHECK`
assertions become `Except.error`, and the output `std::ostream` becomes
an explicit state (`OStream`) whose possible error behaviour is an
environment parameter.  Declarations whose C++ home is the missing
header `elf.h` (struct layouts, enum values, the string/symbol tables)
are modelled from the specification and are marked as such.
-/

namespace Elf

/-- 2^64, the modulus of `uint64_t` arithmetic. -/
def W : Nat := 2 ^ 64

/-- `kPageSize` from elf.cpp. -/
def kPageSize : Nat := 0x1000

/-- `kTextStartAddress` from elf.cpp: one page from the file start. -/
def kTextStartAddress : Nat := kPageSize

/-- `alignUp` from elf.cpp: `(n + mask) & ~mask` on `uint64_t`,
with `mask = kPageSize - 1`; `~mask` on 64 bits is `2^64 - kPageSize`. -/
def alignUp (n : Nat) : Nat :=
  ((n + (kPageSize - 1)) % W) &&& (W - kPageSize)

/-- `isAligned` from elf.cpp. -/
def isAligned (n : Nat) : Bool :=
  n == alignUp n

/-- Modelled from the spec (elf.h is not in the sources): section type
`Program` (program bits). -/
def kProgram : Nat := 1

/-- Modelled from the spec: section type `SymbolTable`. -/
def kSymbolTable : Nat := 11

/-- Modelled from the spec: section type `StringTable`. -/
def kStringTable : Nat := 3

/-- Modelled from the spec: section flag `Alloc` (occupies memory). -/
def kSectionAlloc : Nat := 2

/-- Modelled from the spec: section flag `Executable`. -/
def kSectionExecutable : Nat := 4

/-- Modelled from the spec: section flag `InfoLink`. -/
def kSectionInfoLink : Nat := 64

/-- Modelled from the spec: segment type `Loadable`. -/
def kLoadableSegment : Nat := 1

/-- Modelled from the spec: segment flag `Executable`. -/
def kSegmentExecutable : Nat := 1

/-- Modelled from the spec: segment flag `Readable`. -/
def kSegmentReadable : Nat := 4

/-- Modelled from the spec: symbol binding `Global`. -/
def kGlobal : Nat := 16

/-- Modelled from the spec: symbol type `Function`. -/
def kFunc : Nat := 2

/-- Modelled from the spec: the closed set of section indices
Null, Text, Dynsym, Dynstr, Shstrtab, in this order. -/
inductive SectionIdx where
  | Null
  | Text
  | Dynsym
  | Dynstr
  | Shstrtab
deriving DecidableEq

/-- Modelled from the spec: `raw` of a section index. -/
def SectionIdx.raw : SectionIdx → Nat
  | .Null => 0
  | .Text => 1
  | .Dynsym => 2
  | .Dynstr => 3
  | .Shstrtab => 4

/-- Modelled from the spec: the closed set of segment indices Text, Readonly. -/
inductive SegmentIdx where
  | Text
  | Readonly
deriving DecidableEq

/-- Modelled from the spec: `raw` of a segment index. -/
def SegmentIdx.raw : SegmentIdx → Nat
  | .Text => 0
  | .Readonly => 1

/-- `raw(SectionIdx::kTotal)`: there are exactly 5 sections. -/
def kSectionCount : Nat := 5

/-- `raw(SegmentIdx::kTotal)`: there are exactly 2 segments. -/
def kSegmentCount : Nat := 2

/-- A code entry handed to `writeEntries`: a function name (`func_name`,
as its byte sequence) and the machine-code bytes (`code`). -/
structure CodeEntry where
  func_name : List Nat
  code : List Nat
deriving DecidableEq

/-- Modelled from the spec: append-only string table, pre-seeded with a
single terminator byte so that offset 0 denotes the empty string. -/
structure StringTable where
  buf : List Nat
deriving DecidableEq

/-- A fresh string table: just the initial terminator byte. -/
def StringTable.init : StringTable := ⟨[0]⟩

/-- Modelled from the spec: `insert` appends the name plus one terminator
byte and returns the starting offset of the name. -/
def StringTable.insert (t : StringTable) (s : List Nat) : Nat × StringTable :=
  (t.buf.length, ⟨t.buf ++ s ++ [0]⟩)

/-- Modelled from the spec: `bytes()` exposes the accumulated buffer. -/
def StringTable.bytes (t : StringTable) : List Nat := t.buf

/-- Modelled from the spec: a symbol record — name offset, binding/type
info bits, defining section index, virtual address, size.  (The ELF
`st_other` byte is not named by the spec and stays zero.) -/
structure Symbol where
  name_offset : Nat := 0
  info : Nat := 0
  section_index : Nat := 0
  address : Nat := 0
  size : Nat := 0
deriving DecidableEq

instance : Inhabited Symbol := ⟨{}⟩

/-- The reserved all-zero null symbol at index 0. -/
def Symbol.null : Symbol := {}

/-- `n` serialized as `w` little-endian bytes. -/
def leBytes (w n : Nat) : List Nat :=
  (List.range w).map fun i => n / 256 ^ i % 256

/-- Modelled from the spec: the fixed 24-byte layout of one symbol record
(name offset 4 bytes, info 1, reserved 1, section index 2, address 8,
size 8). -/
def Symbol.serialize (s : Symbol) : List Nat :=
  leBytes 4 s.name_offset ++ leBytes 1 s.info ++ leBytes 1 0 ++
    leBytes 2 s.section_index ++ leBytes 8 s.address ++ leBytes 8 s.size

/-- `sizeof(Symbol)`: 24 bytes. -/
def kSymbolSize : Nat := 24

/-- Modelled from the spec: append-only symbol table beginning with the
all-zero null symbol. -/
structure SymbolTable where
  syms : List Symbol
deriving DecidableEq

/-- A fresh symbol table: just the null symbol. -/
def SymbolTable.init : SymbolTable := ⟨[Symbol.null]⟩

/-- Modelled from the spec: `insert` appends one symbol record. -/
def SymbolTable.insert (t : SymbolTable) (s : Symbol) : SymbolTable :=
  ⟨t.syms ++ [s]⟩

/-- Modelled from the spec: `bytes()` serializes the records in insertion
order with the fixed record layout. -/
def SymbolTable.bytes (t : SymbolTable) : List Nat :=
  t.syms.flatMap Symbol.serialize

/-- Modelled from the spec: a section header record.  Fields not set by
the code stay zero (the Null section header is all-zero). -/
structure SectionHeader where
  name_offset : Nat := 0
  type : Nat := 0
  flags : Nat := 0
  address : Nat := 0
  offset : Nat := 0
  size : Nat := 0
  link : Nat := 0
  info : Nat := 0
  align : Nat := 0
  entry_size : Nat := 0
deriving DecidableEq

instance : Inhabited SectionHeader := ⟨{}⟩

/-- Modelled from the spec: the fixed 64-byte layout of a section header
(name 4, type 4, flags 8, address 8, offset 8, size 8, link 4, info 4,
align 8, entry size 8). -/
def SectionHeader.serialize (h : SectionHeader) : List Nat :=
  leBytes 4 h.name_offset ++ leBytes 4 h.type ++ leBytes 8 h.flags ++
    leBytes 8 h.address ++ leBytes 8 h.offset ++ leBytes 8 h.size ++
    leBytes 4 h.link ++ leBytes 4 h.info ++ leBytes 8 h.align ++
    leBytes 8 h.entry_size

/-- Modelled from the spec: a segment header record (the unnamed physical
address slot of the fixed 56-byte layout stays zero). -/
structure SegmentHeader where
  type : Nat := 0
  flags : Nat := 0
  offset : Nat := 0
  address : Nat := 0
  file_size : Nat := 0
  mem_size : Nat := 0
  align : Nat := 0
deriving DecidableEq

instance : Inhabited SegmentHeader := ⟨{}⟩

/-- Modelled from the spec: the fixed 56-byte layout of a segment header
(type 4, flags 4, offset 8, address 8, physical address 8, file size 8,
memory size 8, align 8). -/
def SegmentHeader.serialize (h : SegmentHeader) : List Nat :=
  leBytes 4 h.type ++ leBytes 4 h.flags ++ leBytes 8 h.offset ++
    leBytes 8 h.address ++ leBytes 8 0 ++ leBytes 8 h.file_size ++
    leBytes 8 h.mem_size ++ leBytes 8 h.align

/-- Modelled from the spec: the file header — fixed format-identification
fields (not named by the spec, serialized as fixed bytes) plus the
locations/counts of the two header tables and the section-name index. -/
structure FileHeader where
  segment_header_offset : Nat := 0
  segment_header_count : Nat := 0
  section_header_offset : Nat := 0
  section_header_count : Nat := 0
  section_name_index : Nat := 0
deriving DecidableEq

/-- `FileHeader{}.header_size`: 64 bytes. -/
def kFileHeaderSize : Nat := 64

/-- Modelled from the spec: the fixed 64-byte file-header layout
(16 identification bytes, then type 2, machine 2, version 4, entry 8,
segment-table offset 8, section-table offset 8, flags 4, header size 2,
segment-entry size 2, segment count 2, section-entry size 2,
section count 2, section-name index 2).  Fields the code never sets are
serialized as fixed constants. -/
def FileHeader.serialize (h : FileHeader) : List Nat :=
  List.replicate 16 0 ++ leBytes 2 0 ++ leBytes 2 0 ++ leBytes 4 0 ++
    leBytes 8 0 ++ leBytes 8 h.segment_header_offset ++
    leBytes 8 h.section_header_offset ++ leBytes 4 0 ++
    leBytes 2 kFileHeaderSize ++ leBytes 2 56 ++
    leBytes 2 h.segment_header_count ++ leBytes 2 64 ++
    leBytes 2 h.section_header_count ++ leBytes 2 h.section_name_index

/-- Modelled from the spec: `offsetof(Object, section_headers)` — the
section-header table follows the 64-byte file header. -/
def kSectionHeadersOffset : Nat := 64

/-- Modelled from the spec: `offsetof(Object, segment_headers)` — the
segment-header table follows the five 64-byte section headers. -/
def kSegmentHeadersOffset : Nat := 64 + 5 * 64

/-- Modelled from the spec: `offsetof(Object, header_stop)` — the end of
the fixed header region (file header + section headers + segment
headers), 496 bytes. -/
def kHeaderStopOffset : Nat := 64 + 5 * 64 + 2 * 56

/-- Modelled from the spec: the layout workspace `Object` — file header,
five section headers, two segment headers, the symbol table `dynsym`,
its name table `dynstr`, the section-name table `shstrtab`, and the
file-offset cursor `section_offset`. -/
structure Object where
  file_header : FileHeader := {}
  section_headers : List SectionHeader := List.replicate 5 {}
  segment_headers : List SegmentHeader := List.replicate 2 {}
  section_offset : Nat := 0
  dynsym : SymbolTable := SymbolTable.init
  dynstr : StringTable := StringTable.init
  shstrtab : StringTable := StringTable.init
deriving DecidableEq

/-- `Object::getSectionHeader` (read side). -/
def Object.getSectionHeader (elf : Object) (i : SectionIdx) : SectionHeader :=
  elf.section_headers.getD i.raw {}

/-- `Object::getSectionHeader` (write side: the C++ returns a mutable
reference; mutation becomes a functional update). -/
def Object.setSectionHeader (elf : Object) (i : SectionIdx)
    (h : SectionHeader) : Object :=
  { elf with section_headers := elf.section_headers.set i.raw h }

/-- `Object::getSegmentHeader` (read side). -/
def Object.getSegmentHeader (elf : Object) (i : SegmentIdx) : SegmentHeader :=
  elf.segment_headers.getD i.raw {}

/-- `Object::getSegmentHeader` (write side). -/
def Object.setSegmentHeader (elf : Object) (i : SegmentIdx)
    (h : SegmentHeader) : Object :=
  { elf with segment_headers := elf.segment_headers.set i.raw h }

/-- `JIT_CHECK(cond, msg)`: fatal unless `cond` holds. -/
def jitCheck (cond : Bool) (msg : String) : Except String Unit :=
  if cond then .ok () else .error msg

/-- ASCII bytes of ".text". -/
def dotText : List Nat := [46, 116, 101, 120, 116]

/-- ASCII bytes of ".dynsym". -/
def dotDynsym : List Nat := [46, 100, 121, 110, 115, 121, 109]

/-- ASCII bytes of ".dynstr". -/
def dotDynstr : List Nat := [46, 100, 121, 110, 115, 116, 114]

/-- ASCII bytes of ".shstrtab". -/
def dotShstrtab : List Nat := [46, 115, 104, 115, 116, 114, 116, 97, 98]

/-- `alignOffset` from elf.cpp: round the cursor up to the next page
boundary and return the padding length (`uint64_t` subtraction). -/
def alignOffset (elf : Object) : Nat × Object :=
  let new_offset := alignUp elf.section_offset
  ((new_offset + W - elf.section_offset) % W,
    { elf with section_offset := new_offset })

/-- `initFileHeader` from elf.cpp. -/
def initFileHeader (elf : Object) : Object :=
  { elf with
      file_header :=
        { segment_header_offset := kSegmentHeadersOffset
          segment_header_count := kSegmentCount
          section_header_offset := kSectionHeadersOffset
          section_header_count := kSectionCount
          section_name_index := SectionIdx.raw .Shstrtab } }

/-- `initTextSection` from elf.cpp. -/
def initTextSection (elf : Object) (text_size : Nat) :
    Except String Object := do
  jitCheck (isAligned elf.section_offset)
    "Text section starts at unaligned address"
  let p := elf.shstrtab.insert dotText
  let header : SectionHeader :=
    { name_offset := p.1
      type := kProgram
      flags := kSectionAlloc ||| kSectionExecutable
      address := elf.section_offset
      offset := elf.section_offset
      size := text_size
      align := 0x10 }
  let elf := { elf with shstrtab := p.2 }
  let elf := elf.setSectionHeader .Text header
  return { elf with section_offset := (elf.section_offset + header.size) % W }

/-- `initDynsymSection` from elf.cpp. -/
def initDynsymSection (elf : Object) : Except String Object := do
  jitCheck (isAligned elf.section_offset)
    "Dynsym section starts at unaligned address"
  let p := elf.shstrtab.insert dotDynsym
  let header : SectionHeader :=
    { name_offset := p.1
      type := kSymbolTable
      flags := kSectionAlloc ||| kSectionInfoLink
      address := elf.section_offset
      offset := elf.section_offset
      size := elf.dynsym.bytes.length
      link := SectionIdx.raw .Dynstr
      info := 1
      entry_size := kSymbolSize }
  let elf := { elf with shstrtab := p.2 }
  let elf := elf.setSectionHeader .Dynsym header
  return { elf with section_offset := (elf.section_offset + header.size) % W }

/-- `initDynstrSection` from elf.cpp. -/
def initDynstrSection (elf : Object) : Object :=
  let p := elf.shstrtab.insert dotDynstr
  let header : SectionHeader :=
    { name_offset := p.1
      type := kStringTable
      flags := kSectionAlloc
      address := elf.section_offset
      offset := elf.section_offset
      size := elf.dynstr.bytes.length }
  let elf := { elf with shstrtab := p.2 }
  let elf := elf.setSectionHeader .Dynstr header
  { elf with section_offset := (elf.section_offset + header.size) % W }

/-- `initShstrtabSection` from elf.cpp (sets only name offset, type,
offset and size; inserts its own name before reading the size). -/
def initShstrtabSection (elf : Object) : Object :=
  let p := elf.shstrtab.insert dotShstrtab
  let elf := { elf with shstrtab := p.2 }
  let header : SectionHeader :=
    { name_offset := p.1
      type := kStringTable
      offset := elf.section_offset
      size := elf.shstrtab.bytes.length }
  let elf := elf.setSectionHeader .Shstrtab header
  { elf with section_offset := (elf.section_offset + header.size) % W }

/-- `initTextSegment` from elf.cpp. -/
def initTextSegment (elf : Object) : Object :=
  let textSection := elf.getSectionHeader .Text
  elf.setSegmentHeader .Text
    { type := kLoadableSegment
      flags := kSegmentExecutable ||| kSegmentReadable
      offset := textSection.offset
      address := textSection.address
      file_size := textSection.size
      mem_size := textSection.size
      align := 0x1000 }

/-- `initReadonlySegment` from elf.cpp: fatal unless the Dynsym section
sits strictly before the Dynstr section. -/
def initReadonlySegment (elf : Object) : Except String Object := do
  let dynsym := elf.getSectionHeader .Dynsym
  let dynstr := elf.getSectionHeader .Dynstr
  jitCheck (decide (dynsym.address < dynstr.address))
    "Expecting sections to be in a specific order"
  return elf.setSegmentHeader .Readonly
    { type := kLoadableSegment
      flags := kSegmentReadable
      offset := dynsym.offset
      address := dynsym.address
      file_size := (dynsym.size + dynstr.size) % W
      mem_size := (dynsym.size + dynstr.size) % W
      align := 0x1000 }

/-- The symbol-construction loop of `writeEntries`: for each entry, in
order, insert its name into `dynstr` and append a global function symbol
at the running cumulative address; returns the final cumulative
address. -/
def buildSymbols (elf : Object) (entries : List CodeEntry) (addr : Nat) :
    Object × Nat :=
  match entries with
  | [] => (elf, addr)
  | e :: rest =>
      let p := elf.dynstr.insert e.func_name
      let sym : Symbol :=
        { name_offset := p.1
          info := kGlobal ||| kFunc
          section_index := SectionIdx.raw .Text
          address := addr
          size := e.code.length }
      buildSymbols
        { elf with dynstr := p.2, dynsym := elf.dynsym.insert sym }
        rest ((addr + e.code.length) % W)

/-- The header-overrun `JIT_CHECK` of `writeEntries`: after aligning, the
cursor must sit exactly at the Text base address. -/
def checkHeadersFit (elf : Object) : Except String Unit :=
  jitCheck (elf.section_offset == kTextStartAddress)
    "ELF headers were too big and went past the zeroth page"

/-- The layout phase of `writeEntries` (everything before the first byte
is emitted): builds the populated workspace and returns it together with
the header padding and the post-Text padding. -/
def buildObject (entries : List CodeEntry) :
    Except String (Object × Nat × Nat) := do
  let elf : Object := {}
  let elf := initFileHeader elf
  let p := buildSymbols elf entries kTextStartAddress
  let elf := p.1
  let text_size := (p.2 + W - kTextStartAddress) % W
  let elf := { elf with section_offset := kHeaderStopOffset }
  let q := alignOffset elf
  let header_padding := q.1
  let elf := q.2
  checkHeadersFit elf
  let elf ← initTextSection elf text_size
  let r := alignOffset elf
  let text_padding := r.1
  let elf := r.2
  let elf ← initDynsymSection elf
  let elf := initDynstrSection elf
  let elf := initShstrtabSection elf
  let elf := initTextSegment elf
  let elf ← initReadonlySegment elf
  return (elf, header_padding, text_padding)

/-- Modelled from the spec: the output byte sink, an external append-only
destination.  `env i` says whether the sink enters its error state on
byte attempt number `i`; once bad, the sink stays bad and drops bytes.
`out` is the bytes the sink accepted, `attempts` counts byte attempts. -/
structure OStream where
  env : Nat → Bool
  attempts : Nat
  bad : Bool
  out : List Nat

/-- A fresh sink with failure environment `env`. -/
def OStream.init (env : Nat → Bool) : OStream :=
  ⟨env, 0, false, []⟩

/-- `os.put(b)`: attempt to append one byte. -/
def OStream.put (os : OStream) (b : Nat) : OStream :=
  if os.bad || os.env os.attempts then
    { os with attempts := os.attempts + 1, bad := true }
  else
    { os with attempts := os.attempts + 1, out := os.out ++ [b] }

/-- `write` from elf.cpp: emit the bytes, then `JIT_CHECK(!os.bad(), ...)`
— fatal (with the sink state at that moment) if the sink is bad. -/
def write (os : OStream) (bytes : List Nat) :
    Except (String × OStream) OStream :=
  let os' := bytes.foldl OStream.put os
  if os'.bad then
    .error ("Failed to write " ++ toString bytes.length ++
      " bytes of ELF output", os')
  else
    .ok os'

/-- `pad` from elf.cpp: `size` zero bytes via `os.put(0)`, with no error
check. -/
def pad (os : OStream) (size : Nat) : OStream :=
  (List.replicate size 0).foldl OStream.put os

/-- The emission pass of `writeEntries` (elf.cpp lines 204-218): headers,
header padding, code bytes of each entry in order, Text padding, symbol
table, symbol names, section names. -/
def emitEntries (os : OStream) (elf : Object)
    (header_padding text_padding : Nat) (entries : List CodeEntry) :
    Except (String × OStream) OStream := do
  let os ← write os elf.file_header.serialize
  let os ← write os (elf.section_headers.flatMap SectionHeader.serialize)
  let os ← write os (elf.segment_headers.flatMap SegmentHeader.serialize)
  let os := pad os header_padding
  let os ← entries.foldlM (fun os e => write os e.code) os
  let os := pad os text_padding
  let os ← write os elf.dynsym.bytes
  let os ← write os elf.dynstr.bytes
  let os ← write os elf.shstrtab.bytes
  return os

/-- Dispatch on the outcome of the layout phase: a failed `JIT_CHECK`
aborts before the first byte reaches the sink; otherwise the emission
pass runs. -/
def emitOrAbort (os : OStream) (entries : List CodeEntry) :
    Except String (Object × Nat × Nat) → Except (String × OStream) OStream
  | .error msg => .error (msg, os)
  | .ok (elf, header_padding, text_padding) =>
      emitEntries os elf header_padding text_padding entries

/-- `writeEntries` from elf.cpp: the layout phase followed by the single
linear emission pass. -/
def writeEntries (os : OStream) (entries : List CodeEntry) :
    Except (String × OStream) OStream :=
  emitOrAbort os entries (buildObject entries)

/-! ### Derived closed forms and observation functions -/

/-- Sum of the code lengths of a list of entries. -/
def sumLen : List CodeEntry → Nat
  | [] => 0
  | e :: r => e.code.length + sumLen r

/-- Total bytes the entries contribute to the symbol-name table:
each name plus its terminator. -/
def nameBytesLen : List CodeEntry → Nat
  | [] => 0
  | e :: r => e.func_name.length + 1 + nameBytesLen r

/-- The bytes the entries append to the symbol-name table. -/
def nameBlob : List CodeEntry → List Nat
  | [] => []
  | e :: r => e.func_name ++ [0] ++ nameBlob r

/-- Closed form of the symbols the loop of `writeEntries` appends,
starting at name-table offset `noff` and cumulative address `addr`. -/
def symsC (noff addr : Nat) : List CodeEntry → List Symbol
  | [] => []
  | e :: r =>
      { name_offset := noff
        info := kGlobal ||| kFunc
        section_index := SectionIdx.raw .Text
        address := addr
        size := e.code.length } ::
        symsC (noff + e.func_name.length + 1) (addr + e.code.length) r

/-- The symbol addresses, starting at cumulative address `addr`. -/
def addrsC (addr : Nat) : List CodeEntry → List Nat
  | [] => []
  | e :: r => addr :: addrsC (addr + e.code.length) r

/-- `x` rounded up to the next multiple of the page size (overflow-free
counterpart of `alignUp`, valid while everything fits in 64 bits). -/
def pageAlign (x : Nat) : Nat :=
  (x + (kPageSize - 1)) / kPageSize * kPageSize

/-- The file offset at which the Dynsym section lands. -/
def dsOffC (entries : List CodeEntry) : Nat :=
  pageAlign (kTextStartAddress + sumLen entries)

/-- The padding emitted between the Text section and the Dynsym section. -/
def textPadC (entries : List CodeEntry) : Nat :=
  dsOffC entries - (kTextStartAddress + sumLen entries)

/-- The input is far away from every 64-bit overflow: total code and
name bytes below `2 ^ 48`.  (Real inputs live in one address space and
satisfy this by construction.) -/
@[reducible] def small (entries : List CodeEntry) : Prop :=
  sumLen entries + nameBytesLen entries < 2 ^ 48

/-- The section-name table after all four section names are inserted. -/
def shstrBufC : List Nat :=
  [0] ++ dotText ++ [0] ++ dotDynsym ++ [0] ++ dotDynstr ++ [0] ++
    dotShstrtab ++ [0]

/-- The workspace `writeEntries` has built once layout is finished:
every field as a function of the entries alone. -/
def elfC (entries : List CodeEntry) : Object :=
  let ts := sumLen entries
  let n := entries.length
  let ds := dsOffC entries
  let dsymSize := kSymbolSize * (n + 1)
  let dstrSize := nameBytesLen entries + 1
  let textSH : SectionHeader :=
    { name_offset := 1
      type := kProgram
      flags := kSectionAlloc ||| kSectionExecutable
      address := kTextStartAddress
      offset := kTextStartAddress
      size := ts
      align := 0x10 }
  { file_header :=
      { segment_header_offset := kSegmentHeadersOffset
        segment_header_count := kSegmentCount
        section_header_offset := kSectionHeadersOffset
        section_header_count := kSectionCount
        section_name_index := SectionIdx.raw .Shstrtab }
    section_headers :=
      [ {}
      , textSH
      , { name_offset := 7
          type := kSymbolTable
          flags := kSectionAlloc ||| kSectionInfoLink
          address := ds
          offset := ds
          size := dsymSize
          link := SectionIdx.raw .Dynstr
          info := 1
          entry_size := kSymbolSize }
      , { name_offset := 15
          type := kStringTable
          flags := kSectionAlloc
          address := ds + dsymSize
          offset := ds + dsymSize
          size := dstrSize }
      , { name_offset := 23
          type := kStringTable
          offset := ds + dsymSize + dstrSize
          size := 33 } ]
    segment_headers :=
      [ { type := kLoadableSegment
          flags := kSegmentExecutable ||| kSegmentReadable
          offset := kTextStartAddress
          address := kTextStartAddress
          file_size := ts
          mem_size := ts
          align := 0x1000 }
      , { type := kLoadableSegment
          flags := kSegmentReadable
          offset := ds
          address := ds
          file_size := dsymSize + dstrSize
          mem_size := dsymSize + dstrSize
          align := 0x1000 } ]
    section_offset := ds + dsymSize + dstrSize + 33
    dynsym := ⟨Symbol.null :: symsC 1 kTextStartAddress entries⟩
    dynstr := ⟨0 :: nameBlob entries⟩
    shstrtab := ⟨shstrBufC⟩ }

/-- Observation: the symbol list of a finished layout. -/
def symsOf : Except String (Object × Nat × Nat) → Option (List Symbol)
  | .ok (elf, _, _) => some elf.dynsym.syms
  | .error _ => none

/-- Observation: one section header of a finished layout. -/
def sectionOf (i : SectionIdx) :
    Except String (Object × Nat × Nat) → Option SectionHeader
  | .ok (elf, _, _) => some (elf.getSectionHeader i)
  | .error _ => none

/-- Observation: one segment header of a finished layout. -/
def segmentOf (i : SegmentIdx) :
    Except String (Object × Nat × Nat) → Option SegmentHeader
  | .ok (elf, _, _) => some (elf.getSegmentHeader i)
  | .error _ => none

/-- Observation: the two padding lengths of a finished layout. -/
def paddingsOf : Except String (Object × Nat × Nat) → Option (Nat × Nat)
  | .ok (_, hp, tp) => some (hp, tp)
  | .error _ => none

/-- Observation: the bytes a completed emission handed to the sink. -/
def okOut : Except (String × OStream) OStream → Option (List Nat)
  | .ok os => some os.out
  | .error _ => none

/-- Observation: did the emission complete? -/
def isOkW : Except (String × OStream) OStream → Bool
  | .ok _ => true
  | .error _ => false

/-- Observation: on an aborted emission, the fatal message and the
number of byte attempts the sink had seen when the abort fired. -/
def errInfo : Except (String × OStream) OStream → Option (String × Nat)
  | .error (m, os) => some (m, os.attempts)
  | .ok _ => none

/-- Concatenated code bytes of the entries, in input order. -/
def codeBlob : List CodeEntry → List Nat
  | [] => []
  | e :: r => e.code ++ codeBlob r

/-- The byte stream `writeEntries` emits on a healthy sink, from the
finished workspace and the two padding lengths. -/
def emitStream (elf : Object) (hp tp : Nat) (entries : List CodeEntry) :
    List Nat :=
  elf.file_header.serialize ++
    elf.section_headers.flatMap SectionHeader.serialize ++
    elf.segment_headers.flatMap SegmentHeader.serialize ++
    List.replicate hp 0 ++
    codeBlob entries ++
    List.replicate tp 0 ++
    elf.dynsym.bytes ++ elf.dynstr.bytes ++ elf.shstrtab.bytes

/-- The effect of a successful uninterrupted emission of `bytes`. -/
def putAll (os : OStream) (bytes : List Nat) : OStream :=
  { os with attempts := os.attempts + bytes.length, out := os.out ++ bytes }

/-- The file header as `initFileHeader` sets it. -/
def fhC : FileHeader :=
  { segment_header_offset := kSegmentHeadersOffset
    segment_header_count := kSegmentCount
    section_header_offset := kSectionHeadersOffset
    section_header_count := kSectionCount
    section_name_index := SectionIdx.raw .Shstrtab }

/-- The workspace right after the symbol-construction loop. -/
def elf1C (entries : List CodeEntry) : Object :=
  { file_header := fhC
    section_headers := List.replicate 5 {}
    segment_headers := List.replicate 2 {}
    section_offset := 0
    dynsym := ⟨Symbol.null :: symsC 1 kTextStartAddress entries⟩
    dynstr := ⟨0 :: nameBlob entries⟩
    shstrtab := StringTable.init }

/-- The default, all-empty code entry (used only as a `getD` fallback). -/
def CodeEntry.nil : CodeEntry := ⟨[], []⟩

/-- What one emission phase guarantees about the sink: the environment
is untouched, attempts only grow, and a clean exit certifies that the
sink reported no failure on any attempt made during the phase. -/
def Tracks (os os' : OStream) : Prop :=
  os'.env = os.env ∧ os.attempts ≤ os'.attempts ∧
    (os'.bad = false → os.bad = false ∧
      ∀ i, os.attempts ≤ i → i < os'.attempts → os.env i = false)

/-- The sink that fails exactly on byte attempt 496 — the first byte of
the header padding, right after the 496 header bytes. -/
def env496 : Nat → Bool := fun n => n == 496

/-- One entry with a one-byte name and one byte of code. -/
def cex5 : List CodeEntry := [⟨[120], [55]⟩]

/-- A small concrete input for witnesses: one entry, one-byte name,
one byte of code. -/
def wEntries : List CodeEntry := [⟨[119], [9]⟩]

/-! ### Arithmetic facts about page alignment -/

theorem W_eq : W = 18446744073709551616 := by norm_num [W]

/-- Masking with the 64-bit complement of the page mask clears the low
twelve bits. -/
theorem land_pageMask (x : Nat) (hx : x < W) :
    x &&& (W - kPageSize) = x - x % kPageSize := by
  have hmask : (W - kPageSize : Nat) = (2 ^ 52 - 1) <<< 12 := by
    norm_num [W, kPageSize, Nat.shiftLeft_eq]
  have hsub : x - x % kPageSize = (x >>> 12) <<< 12 := by
    simp only [Nat.shiftLeft_eq, Nat.shiftRight_eq_div_pow, kPageSize]
    omega
  apply Nat.eq_of_testBit_eq
  intro i
  rw [Nat.testBit_land, hmask, hsub, Nat.testBit_shiftLeft,
    Nat.testBit_shiftLeft, Nat.testBit_two_pow_sub_one,
    Nat.testBit_shiftRight]
  by_cases h12 : 12 ≤ i
  · by_cases h64 : i < 64
    · have hi : 12 + (i - 12) = i := by omega
      simp [h12, hi, show i - 12 < 52 by omega]
    · have hx0 : x.testBit i = false := by
        refine Nat.testBit_lt_two_pow (lt_of_lt_of_le hx ?_)
        have hW : (W : Nat) = 2 ^ 64 := rfl
        rw [hW]
        exact Nat.pow_le_pow_right (by norm_num) (by omega)
      have hi : 12 + (i - 12) = i := by omega
      simp [h12, hi, hx0, show ¬ (i - 12 < 52) by omega]
  · simp [h12, show ¬ (12 : Nat) ≤ i from h12]

/-- Under no overflow, `alignUp` is rounding up to the next page. -/
theorem alignUp_eq (x : Nat) (h : x + (kPageSize - 1) < W) :
    alignUp x = pageAlign x := by
  rw [alignUp, Nat.mod_eq_of_lt h, land_pageMask _ h, pageAlign]
  simp only [kPageSize] at *
  omega

theorem pageAlign_le (x : Nat) : x ≤ pageAlign x := by
  simp only [pageAlign, kPageSize]
  omega

theorem pageAlign_lt (x : Nat) : pageAlign x < x + kPageSize := by
  simp only [pageAlign, kPageSize]
  omega

theorem pageAlign_mod (x : Nat) : pageAlign x % kPageSize = 0 := by
  simp only [pageAlign, kPageSize]
  omega

theorem pageAlign_of_mod (x : Nat) (h : x % kPageSize = 0) :
    pageAlign x = x := by
  simp only [pageAlign, kPageSize] at *
  omega

/-- A page-aligned value below the 64-bit bound is `isAligned`. -/
theorem isAligned_of_mod (x : Nat) (hx : x < W) (h : x % kPageSize = 0) :
    isAligned x = true := by
  have hx2 : x + (kPageSize - 1) < W := by
    have hle : x ≤ W - kPageSize := by
      have hW : W % kPageSize = 0 := by norm_num [W, kPageSize]
      simp only [kPageSize] at *
      omega
    simp only [kPageSize, W] at *
    omega
  rw [isAligned, alignUp_eq x hx2, pageAlign_of_mod x h]
  exact beq_self_eq_true x

/-! ### The layout phase, solved -/

theorem ok_bind {e a b : Type} (x : a) (f : a → Except e b) :
    (Except.ok x : Except e a) >>= f = f x := rfl

theorem pure_ok {e a : Type} (x : a) :
    (pure x : Except e a) = Except.ok x := rfl

theorem symsC_length (noff addr : Nat) (es : List CodeEntry) :
    (symsC noff addr es).length = es.length := by
  induction es generalizing noff addr with
  | nil => rfl
  | cons e r ih => simp [symsC, ih]

theorem nameBlob_length (es : List CodeEntry) :
    (nameBlob es).length = nameBytesLen es := by
  induction es with
  | nil => rfl
  | cons e r ih => simp [nameBlob, nameBytesLen, ih]; omega

theorem length_le_nameBytesLen (es : List CodeEntry) :
    es.length ≤ nameBytesLen es := by
  induction es with
  | nil => simp [nameBytesLen]
  | cons e r ih => simp only [nameBytesLen, List.length_cons]; omega

theorem symtab_bytes_length (l : List Symbol) :
    (SymbolTable.bytes ⟨l⟩).length = kSymbolSize * l.length := by
  induction l with
  | nil => rfl
  | cons s r ih =>
      simp only [SymbolTable.bytes, List.flatMap_cons, List.length_append] at ih ⊢
      have hs : (Symbol.serialize s).length = kSymbolSize := by
        simp [Symbol.serialize, leBytes, kSymbolSize]
      rw [hs, ih]
      simp only [List.length_cons, kSymbolSize]
      ring

/-- The symbol-construction loop of `writeEntries`, solved: it appends
the closed-form symbols to `dynsym`, the names to `dynstr`, touches
nothing else, and returns the cumulative end address. -/
theorem buildSymbols_spec (es : List CodeEntry) :
    ∀ (elf : Object) (addr : Nat), addr + sumLen es < W →
      buildSymbols elf es addr =
        ({ elf with
            dynsym := ⟨elf.dynsym.syms ++ symsC elf.dynstr.buf.length addr es⟩
            dynstr := ⟨elf.dynstr.buf ++ nameBlob es⟩ },
          addr + sumLen es) := by
  induction es with
  | nil =>
      intro elf addr _
      simp [buildSymbols, symsC, nameBlob, sumLen]
  | cons e r ih =>
      intro elf addr h
      have hmod : (addr + e.code.length) % W = addr + e.code.length := by
        apply Nat.mod_eq_of_lt
        simp only [sumLen] at h
        omega
      rw [buildSymbols, hmod, ih _ (addr + e.code.length)
        (by simp only [sumLen] at h ⊢; omega)]
      simp [StringTable.insert, SymbolTable.insert, symsC, nameBlob,
        sumLen, List.append_assoc, Nat.add_assoc]

/-- The layout phase, solved: under the no-overflow bound it always
succeeds and produces exactly the closed-form workspace, a header
padding of 3600 bytes and the post-Text padding. -/
theorem buildObject_spec (entries : List CodeEntry) (h : small entries) :
    buildObject entries = .ok (elfC entries, 3600, textPadC entries) := by
  have hW : W = 18446744073709551616 := W_eq
  have hsum : sumLen entries + nameBytesLen entries < 281474976710656 := by
    have h2 := h
    norm_num [small] at h2
    omega
  have h1 : buildSymbols (initFileHeader {}) entries kTextStartAddress =
      (elf1C entries, kTextStartAddress + sumLen entries) := by
    rw [buildSymbols_spec entries _ kTextStartAddress
      (by simp only [kTextStartAddress, kPageSize]; omega)]
    rfl
  have nn : entries.length ≤ nameBytesLen entries := length_le_nameBytesLen entries
  have ha1 : alignUp kHeaderStopOffset = kTextStartAddress := by decide
  have ha2 : (kTextStartAddress + W - kHeaderStopOffset) % W = 3600 := by decide
  have htsz : (kTextStartAddress + sumLen entries + W - kTextStartAddress) % W
      = sumLen entries := by
    simp only [kTextStartAddress, kPageSize, hW]
    omega
  have hAlignText : isAligned kTextStartAddress = true := by decide
  have hm1 : (kTextStartAddress + sumLen entries) % W = kTextStartAddress + sumLen entries := by
    simp only [kTextStartAddress, kPageSize, hW]
    omega
  have hds_le : kTextStartAddress + sumLen entries ≤ dsOffC entries :=
    pageAlign_le _
  have hds_lt : dsOffC entries < kTextStartAddress + sumLen entries + kPageSize :=
    pageAlign_lt _
  have hds_mod : dsOffC entries % kPageSize = 0 := pageAlign_mod _
  have hAlign2 : alignUp (kTextStartAddress + sumLen entries) = dsOffC entries := by
    rw [alignUp_eq]
    · rfl
    · simp only [kTextStartAddress, kPageSize, hW]
      omega
  have hpad2 : (dsOffC entries + W - (kTextStartAddress + sumLen entries)) % W
      = textPadC entries := by
    simp only [textPadC, kTextStartAddress, kPageSize, hW] at *
    omega
  have hAlignDs : isAligned (dsOffC entries) = true := by
    apply isAligned_of_mod _ _ hds_mod
    simp only [kTextStartAddress, kPageSize, hW] at *
    omega
  have hdsymlen : ((Symbol.null :: symsC 1 kTextStartAddress entries).flatMap Symbol.serialize).length
      = kSymbolSize * (entries.length + 1) := by
    have hb := symtab_bytes_length (Symbol.null :: symsC 1 kTextStartAddress entries)
    simpa [SymbolTable.bytes, symsC_length] using hb
  have hoff1 : (dsOffC entries + kSymbolSize * (entries.length + 1)) % W
      = dsOffC entries + kSymbolSize * (entries.length + 1) := by
    simp only [kSymbolSize, kTextStartAddress, kPageSize, hW] at *
    omega
  have hoff2 : (dsOffC entries + kSymbolSize * (entries.length + 1) + (nameBytesLen entries + 1)) % W
      = dsOffC entries + kSymbolSize * (entries.length + 1) + (nameBytesLen entries + 1) := by
    simp only [kSymbolSize, kTextStartAddress, kPageSize, hW] at *
    omega
  have hoff3 : (dsOffC entries + kSymbolSize * (entries.length + 1) + (nameBytesLen entries + 1) + 33) % W
      = dsOffC entries + kSymbolSize * (entries.length + 1) + (nameBytesLen entries + 1) + 33 := by
    simp only [kSymbolSize, kTextStartAddress, kPageSize, hW] at *
    omega
  have hro : (decide (dsOffC entries < dsOffC entries + kSymbolSize * (entries.length + 1))) = true := by
    simp [kSymbolSize]
  simp only [buildObject, h1]
  simp only [alignOffset, ha1, ha2, checkHeadersFit, jitCheck, hAlignText,
    initTextSection, initDynsymSection, initDynstrSection, initShstrtabSection,
    initTextSegment, initReadonlySegment, htsz, hm1, hAlign2, hpad2, hAlignDs,
    hdsymlen, nameBlob_length, hoff1, hoff2, hoff3, hro, ok_bind, pure_ok,
    StringTable.insert, StringTable.bytes, SymbolTable.bytes, StringTable.init,
    Object.getSectionHeader, Object.setSectionHeader,
    Object.getSegmentHeader, Object.setSegmentHeader, SectionIdx.raw, SegmentIdx.raw,
    List.replicate, List.set, List.getD, List.get?, elf1C, fhC, elfC,
    beq_self_eq_true, if_true, List.length_append, List.length_cons,
    List.length_nil, dotText, dotDynsym, dotDynstr, dotShstrtab]
  have hrosz : (kSymbolSize * (entries.length + 1) + (nameBytesLen entries + 1)) % W
      = kSymbolSize * (entries.length + 1) + (nameBytesLen entries + 1) := by
    simp only [kSymbolSize, hW] at *
    omega
  simp only [Option.getD_some]
  norm_num
  have hks : 0 < kSymbolSize := by norm_num [kSymbolSize]
  simp only [hro, if_true, ok_bind, pure_ok, hrosz, hks, if_pos, eq_true hks]
  rfl

/-! ### The emission pass, solved for a healthy sink -/

theorem foldl_put_clean (bytes : List Nat) : ∀ os : OStream, os.bad = false →
    (∀ i, os.attempts ≤ i → i < os.attempts + bytes.length → os.env i = false) →
    bytes.foldl OStream.put os =
      { os with attempts := os.attempts + bytes.length, out := os.out ++ bytes } := by
  induction bytes with
  | nil =>
      intro os h _
      simp [List.foldl]
  | cons b r ih =>
      intro os h he
      rw [List.foldl_cons]
      have hput : os.put b =
          { os with attempts := os.attempts + 1, out := os.out ++ [b] } := by
        have he0 : os.env os.attempts = false :=
          he os.attempts (le_refl _) (by simp [List.length_cons])
        simp [OStream.put, h, he0]
      rw [hput]
      rw [ih { os with attempts := os.attempts + 1, out := os.out ++ [b] }
        (by exact h)
        (by
          intro i h1 h2
          simp only at h1 h2
          exact he i (by omega) (by simp [List.length_cons]; omega))]
      simp [OStream.mk.injEq, List.append_assoc, Nat.add_assoc,
        Nat.add_comm, Nat.add_left_comm]

theorem foldl_put_bad (bytes : List Nat) : ∀ os : OStream, os.bad = true →
    bytes.foldl OStream.put os =
      { os with attempts := os.attempts + bytes.length, bad := true } := by
  induction bytes with
  | nil =>
      intro os h
      simp [List.foldl, ← h]
  | cons b r ih =>
      intro os h
      rw [List.foldl_cons]
      have hput : os.put b =
          { os with attempts := os.attempts + 1, bad := true } := by
        simp [OStream.put, h]
      rw [hput, ih _ rfl]
      simp [OStream.mk.injEq, Nat.add_assoc, Nat.add_comm, Nat.add_left_comm]

theorem write_clean (os : OStream) (bytes : List Nat) (h : os.bad = false)
    (he : ∀ i, os.attempts ≤ i → i < os.attempts + bytes.length →
      os.env i = false) :
    write os bytes =
      .ok { os with attempts := os.attempts + bytes.length,
                    out := os.out ++ bytes } := by
  rw [write, foldl_put_clean bytes os h he]
  simp [h]

theorem pad_clean (os : OStream) (n : Nat) (h : os.bad = false)
    (he : ∀ i, os.attempts ≤ i → i < os.attempts + n → os.env i = false) :
    pad os n =
      { os with attempts := os.attempts + n,
                out := os.out ++ List.replicate n 0 } := by
  rw [pad, foldl_put_clean _ os h]
  · simp
  · simpa using he

theorem foldlM_write_clean (es : List CodeEntry) : ∀ os : OStream,
    os.bad = false → (∀ i, os.env i = false) →
    es.foldlM (fun os e => write os e.code) os =
      .ok { os with attempts := os.attempts + (codeBlob es).length,
                    out := os.out ++ codeBlob es } := by
  induction es with
  | nil =>
      intro os h he
      simp [List.foldlM, codeBlob, pure_ok]
  | cons e r ih =>
      intro os h he
      rw [List.foldlM_cons]
      rw [write_clean os e.code h (by intro i _ _; exact he i)]
      rw [ok_bind]
      rw [ih { os with attempts := os.attempts + e.code.length, out := os.out ++ e.code }
        (by exact h) (by intro i; exact he i)]
      simp [OStream.mk.injEq, codeBlob, List.append_assoc, Nat.add_assoc,
        Nat.add_comm, Nat.add_left_comm]

theorem putAll_putAll (os : OStream) (a b : List Nat) :
    putAll (putAll os a) b = putAll os (a ++ b) := by
  simp [putAll, List.append_assoc, Nat.add_assoc]

theorem write_ok (os : OStream) (bytes : List Nat) (h : os.bad = false)
    (he : ∀ i, os.env i = false) :
    write os bytes = .ok (putAll os bytes) :=
  write_clean os bytes h (by intro i _ _; exact he i)

theorem pad_ok (os : OStream) (n : Nat) (h : os.bad = false)
    (he : ∀ i, os.env i = false) :
    pad os n = putAll os (List.replicate n 0) := by
  rw [pad_clean os n h (by intro i _ _; exact he i)]
  simp [putAll]

theorem foldlM_write_ok (es : List CodeEntry) (os : OStream)
    (h : os.bad = false) (he : ∀ i, os.env i = false) :
    es.foldlM (fun os e => write os e.code) os =
      .ok (putAll os (codeBlob es)) :=
  foldlM_write_clean es os h he

/-- On a sink that never fails, the emission pass completes and hands
the sink exactly the emission stream, in order. -/
theorem emitEntries_clean (entries : List CodeEntry) (elf : Object)
    (hp tp : Nat) (os : OStream)
    (h : os.bad = false) (he : ∀ i, os.env i = false) :
    emitEntries os elf hp tp entries =
      .ok (putAll os (emitStream elf hp tp entries)) := by
  rw [emitEntries]
  rw [write_ok os elf.file_header.serialize h he, ok_bind]
  rw [write_ok (putAll os elf.file_header.serialize)
    (elf.section_headers.flatMap SectionHeader.serialize) h he, ok_bind,
    putAll_putAll]
  rw [write_ok
    (putAll os (elf.file_header.serialize ++
      elf.section_headers.flatMap SectionHeader.serialize))
    (elf.segment_headers.flatMap SegmentHeader.serialize) h he, ok_bind,
    putAll_putAll]
  rw [pad_ok
    (putAll os (elf.file_header.serialize ++
      elf.section_headers.flatMap SectionHeader.serialize ++
      elf.segment_headers.flatMap SegmentHeader.serialize))
    hp h he, putAll_putAll]
  dsimp only
  rw [foldlM_write_ok entries
    (putAll os (elf.file_header.serialize ++
      elf.section_headers.flatMap SectionHeader.serialize ++
      elf.segment_headers.flatMap SegmentHeader.serialize ++
      List.replicate hp 0))
    h he, ok_bind, putAll_putAll]
  rw [pad_ok
    (putAll os (elf.file_header.serialize ++
      elf.section_headers.flatMap SectionHeader.serialize ++
      elf.segment_headers.flatMap SegmentHeader.serialize ++
      List.replicate hp 0 ++ codeBlob entries))
    tp h he, putAll_putAll]
  rw [write_ok
    (putAll os (elf.file_header.serialize ++
      elf.section_headers.flatMap SectionHeader.serialize ++
      elf.segment_headers.flatMap SegmentHeader.serialize ++
      List.replicate hp 0 ++ codeBlob entries ++ List.replicate tp 0))
    elf.dynsym.bytes h he, ok_bind, putAll_putAll]
  rw [write_ok
    (putAll os (elf.file_header.serialize ++
      elf.section_headers.flatMap SectionHeader.serialize ++
      elf.segment_headers.flatMap SegmentHeader.serialize ++
      List.replicate hp 0 ++ codeBlob entries ++ List.replicate tp 0 ++
      elf.dynsym.bytes))
    elf.dynstr.bytes h he, ok_bind, putAll_putAll]
  rw [write_ok
    (putAll os (elf.file_header.serialize ++
      elf.section_headers.flatMap SectionHeader.serialize ++
      elf.segment_headers.flatMap SegmentHeader.serialize ++
      List.replicate hp 0 ++ codeBlob entries ++ List.replicate tp 0 ++
      elf.dynsym.bytes ++ elf.dynstr.bytes))
    elf.shstrtab.bytes h he, ok_bind, putAll_putAll]
  rw [emitStream]
  rfl

/-- On a sink that never fails, `writeEntries` completes with exactly
the emission stream whenever layout succeeds. -/
theorem writeEntries_clean (entries : List CodeEntry) (elf : Object)
    (hp tp : Nat) (os : OStream)
    (hb : buildObject entries = .ok (elf, hp, tp))
    (h : os.bad = false) (he : ∀ i, os.env i = false) :
    writeEntries os entries =
      .ok (putAll os (emitStream elf hp tp entries)) := by
  rw [writeEntries, hb]
  exact emitEntries_clean entries elf hp tp os h he

theorem symsC_getD (es : List CodeEntry) : ∀ noff addr i, i < es.length →
    (symsC noff addr es).getD i Symbol.null =
      { name_offset := noff + nameBytesLen (es.take i)
        info := kGlobal ||| kFunc
        section_index := SectionIdx.raw .Text
        address := addr + sumLen (es.take i)
        size := ((es.getD i CodeEntry.nil).code).length } := by
  induction es with
  | nil =>
      intro noff addr i hi
      simp at hi
  | cons e r ih =>
      intro noff addr i hi
      cases i with
      | zero =>
          simp [symsC, List.getD, nameBytesLen, sumLen]
      | succ j =>
          have hj : j < r.length := by simpa using hi
          simp only [symsC, List.getD_cons_succ, List.take_succ_cons,
            nameBytesLen, sumLen]
          rw [ih _ _ j hj]
          simp only [Symbol.mk.injEq, nameBytesLen, sumLen, List.getD_cons_succ]
          refine ⟨by omega, trivial, trivial, by omega, trivial⟩

theorem symsC_map_address (es : List CodeEntry) : ∀ noff addr,
    (symsC noff addr es).map Symbol.address = addrsC addr es := by
  induction es with
  | nil => intro noff addr; rfl
  | cons e r ih =>
      intro noff addr
      simp [symsC, addrsC, ih]

theorem addrsC_chain_le (es : List CodeEntry) : ∀ addr,
    List.Chain' (fun a b => a ≤ b) (addrsC addr es) := by
  induction es with
  | nil => intro addr; simp [addrsC]
  | cons e r ih =>
      intro addr
      cases r with
      | nil => simp [addrsC]
      | cons f t =>
          rw [addrsC, addrsC]
          refine List.Chain'.cons ?_ ?_
          · omega
          · have h2 := ih (addr + e.code.length)
            rw [addrsC] at h2
            exact h2

theorem addrsC_chain_lt (es : List CodeEntry) : ∀ addr,
    (∀ e ∈ es, e.code ≠ []) →
    List.Chain' (fun a b => a < b) (addrsC addr es) := by
  induction es with
  | nil => intro addr _; simp [addrsC]
  | cons e r ih =>
      intro addr hne
      cases r with
      | nil => simp [addrsC]
      | cons f t =>
          rw [addrsC, addrsC]
          refine List.Chain'.cons ?_ ?_
          · have hme : e.code ≠ [] := hne e (by simp)
            have : 0 < e.code.length := List.length_pos.mpr hme
            omega
          · have h2 := ih (addr + e.code.length) (by
              intro x hx
              exact hne x (by simp [hx]))
            rw [addrsC] at h2
            exact h2

theorem Tracks.refl (os : OStream) : Tracks os os :=
  ⟨rfl, le_refl _, fun h => ⟨h, fun i h1 h2 => absurd h2 (by omega)⟩⟩

theorem Tracks.trans {os1 os2 os3 : OStream}
    (h12 : Tracks os1 os2) (h23 : Tracks os2 os3) : Tracks os1 os3 := by
  obtain ⟨e12, a12, c12⟩ := h12
  obtain ⟨e23, a23, c23⟩ := h23
  refine ⟨e23.trans e12, a12.trans a23, ?_⟩
  intro h3
  obtain ⟨b2, r23⟩ := c23 h3
  obtain ⟨b1, r12⟩ := c12 b2
  refine ⟨b1, ?_⟩
  intro i h1 h2
  by_cases hc : i < os2.attempts
  · exact r12 i h1 hc
  · have := r23 i (by omega) h2
    rwa [e12] at this

theorem put_tracks (os : OStream) (b : Nat) : Tracks os (os.put b) := by
  rw [OStream.put]
  by_cases hb : (os.bad || os.env os.attempts) = true
  · rw [if_pos hb]
    exact ⟨rfl, by simp, by simp⟩
  · rw [if_neg hb]
    simp only [Bool.or_eq_true, not_or, Bool.not_eq_true] at hb
    refine ⟨rfl, by simp, fun _ => ⟨hb.1, ?_⟩⟩
    intro i h1 h2
    simp only at h2
    have : i = os.attempts := by omega
    rw [this]
    exact hb.2

theorem foldl_put_tracks (bytes : List Nat) : ∀ os : OStream,
    Tracks os (bytes.foldl OStream.put os) := by
  induction bytes with
  | nil => intro os; exact Tracks.refl os
  | cons b r ih =>
      intro os
      rw [List.foldl_cons]
      exact (put_tracks os b).trans (ih (os.put b))

theorem pad_tracks (os : OStream) (n : Nat) : Tracks os (pad os n) :=
  foldl_put_tracks _ os

theorem write_ok_inv (os : OStream) (bytes : List Nat) (os' : OStream)
    (h : write os bytes = .ok os') :
    os' = bytes.foldl OStream.put os ∧ os'.bad = false := by
  rw [write] at h
  by_cases hb : (bytes.foldl OStream.put os).bad = true
  · rw [if_pos hb] at h
    exact absurd h (by simp)
  · rw [if_neg hb] at h
    simp only [Except.ok.injEq] at h
    simp only [Bool.not_eq_true] at hb
    exact ⟨h.symm, h ▸ hb⟩

theorem write_tracks (os : OStream) (bytes : List Nat) (os' : OStream)
    (h : write os bytes = .ok os') : Tracks os os' ∧ os'.bad = false := by
  obtain ⟨he, hb⟩ := write_ok_inv os bytes os' h
  exact ⟨he ▸ foldl_put_tracks bytes os, hb⟩

theorem error_bind {e a b : Type} (x : e) (f : a → Except e b) :
    (Except.error x : Except e a) >>= f = Except.error x := rfl

theorem foldlM_write_tracks (es : List CodeEntry) : ∀ os os' : OStream,
    es.foldlM (fun os e => write os e.code) os = .ok os' →
    Tracks os os' := by
  induction es with
  | nil =>
      intro os os' h
      simp only [List.foldlM, pure_ok, Except.ok.injEq] at h
      exact h ▸ Tracks.refl os
  | cons e r ih =>
      intro os os' h
      rw [List.foldlM_cons] at h
      cases hw : write os e.code with
      | error x =>
          rw [hw, error_bind] at h
          exact absurd h (by simp)
      | ok os1 =>
          rw [hw, ok_bind] at h
          exact (write_tracks os e.code os1 hw).1.trans (ih os1 os' h)


theorem emitEntries_tracks (entries : List CodeEntry) (elf : Object)
    (hp tp : Nat) (os os' : OStream)
    (h : emitEntries os elf hp tp entries = .ok os') :
    Tracks os os' ∧ os'.bad = false := by
  rw [emitEntries] at h
  cases h1 : write os elf.file_header.serialize with
  | error x => rw [h1, error_bind] at h; exact absurd h (by simp)
  | ok os1 =>
  rw [h1, ok_bind] at h
  cases h2 : write os1 (elf.section_headers.flatMap SectionHeader.serialize) with
  | error x => rw [h2, error_bind] at h; exact absurd h (by simp)
  | ok os2 =>
  rw [h2, ok_bind] at h
  cases h3 : write os2 (elf.segment_headers.flatMap SegmentHeader.serialize) with
  | error x => rw [h3, error_bind] at h; exact absurd h (by simp)
  | ok os3 =>
  rw [h3, ok_bind] at h
  dsimp only at h
  cases h4 : (entries.foldlM (fun os e => write os e.code) (pad os3 hp)) with
  | error x => rw [h4, error_bind] at h; exact absurd h (by simp)
  | ok os4 =>
  rw [h4, ok_bind] at h
  cases h5 : write (pad os4 tp) elf.dynsym.bytes with
  | error x => rw [h5, error_bind] at h; exact absurd h (by simp)
  | ok os5 =>
  rw [h5, ok_bind] at h
  cases h6 : write os5 elf.dynstr.bytes with
  | error x => rw [h6, error_bind] at h; exact absurd h (by simp)
  | ok os6 =>
  rw [h6, ok_bind] at h
  cases h7 : write os6 elf.shstrtab.bytes with
  | error x => rw [h7, error_bind] at h; exact absurd h (by simp)
  | ok os7 =>
  rw [h7, ok_bind] at h
  simp only [pure_ok, Except.ok.injEq] at h
  subst h
  have t1 := write_tracks _ _ _ h1
  have t2 := write_tracks _ _ _ h2
  have t3 := write_tracks _ _ _ h3
  have t4 := foldlM_write_tracks entries _ _ h4
  have t5 := write_tracks _ _ _ h5
  have t6 := write_tracks _ _ _ h6
  have t7 := write_tracks _ _ _ h7
  refine ⟨?_, t7.2⟩
  exact t1.1.trans (t2.1.trans (t3.1.trans ((pad_tracks os3 hp).trans
    (t4.trans ((pad_tracks os4 tp).trans (t5.1.trans (t6.1.trans t7.1)))))))

theorem pad_first_fail (os : OStream) (n : Nat) (h : os.bad = false)
    (he : os.env os.attempts = true) (hn : 0 < n) :
    pad os n = { os with attempts := os.attempts + n, bad := true } := by
  cases n with
  | zero => exact absurd hn (by omega)
  | succ m =>
      rw [pad, List.replicate_succ, List.foldl_cons]
      have hput : os.put 0 = { os with attempts := os.attempts + 1, bad := true } := by
        simp [OStream.put, h, he]
      rw [hput, foldl_put_bad _ _ rfl]
      simp [OStream.mk.injEq, Nat.add_assoc, Nat.add_comm, Nat.add_left_comm]

theorem write_bad (os : OStream) (bytes : List Nat) (h : os.bad = true) :
    write os bytes = .error
      ("Failed to write " ++ toString bytes.length ++ " bytes of ELF output",
        { os with attempts := os.attempts + bytes.length, bad := true }) := by
  rw [write, foldl_put_bad _ _ h]
  simp

theorem write_lit (env : Nat → Bool) (a n a2 : Nat) (o bytes : List Nat)
    (hlen : bytes.length = n) (ha : a + n = a2)
    (he : ∀ i, a ≤ i → i < a2 → env i = false) :
    write ⟨env, a, false, o⟩ bytes = .ok ⟨env, a2, false, o ++ bytes⟩ := by
  rw [write_clean ⟨env, a, false, o⟩ bytes rfl (by
    intro i h1 h2
    simp only at h1 h2
    exact he i h1 (by omega))]
  simp only [Except.ok.injEq, OStream.mk.injEq]
  exact ⟨trivial, by simp [hlen, ha], trivial, trivial⟩

theorem pad_fail_lit (env : Nat → Bool) (a n a2 : Nat) (o : List Nat)
    (he : env a = true) (hn : 0 < n) (ha : a + n = a2) :
    pad ⟨env, a, false, o⟩ n = ⟨env, a2, true, o⟩ := by
  rw [pad_first_fail ⟨env, a, false, o⟩ n rfl he hn]
  simp only [OStream.mk.injEq]
  exact ⟨trivial, by simp [ha], trivial, trivial⟩

theorem write_bad_lit (env : Nat → Bool) (a n a2 : Nat) (o bytes : List Nat)
    (hlen : bytes.length = n) (ha : a + n = a2) :
    write ⟨env, a, true, o⟩ bytes = .error
      ("Failed to write " ++ toString n ++ " bytes of ELF output",
        ⟨env, a2, true, o⟩) := by
  rw [write_bad ⟨env, a, true, o⟩ bytes rfl]
  rw [hlen]
  simp only [Except.error.injEq, Prod.mk.injEq, OStream.mk.injEq]
  exact ⟨trivial, trivial, by simp [ha], trivial, trivial⟩

set_option maxRecDepth 40000 in
theorem writeEntries_env496 :
    writeEntries (OStream.init env496) cex5 =
      .error ("Failed to write 1 bytes of ELF output",
        ⟨env496, 4097, true,
          ([] ++ (elfC cex5).file_header.serialize ++
            (elfC cex5).section_headers.flatMap SectionHeader.serialize ++
            (elfC cex5).segment_headers.flatMap SegmentHeader.serialize)⟩) := by
  have hl1 : ((elfC cex5).file_header.serialize).length = 64 := by decide
  have hl2 : ((elfC cex5).section_headers.flatMap SectionHeader.serialize).length = 320 := by decide
  have hl3 : ((elfC cex5).segment_headers.flatMap SegmentHeader.serialize).length = 112 := by decide
  rw [writeEntries, buildObject_spec cex5 (by decide)]
  rw [emitOrAbort, emitEntries]
  simp only [OStream.init]
  rw [write_lit env496 0 64 64 [] _ hl1 (by norm_num) (by
    intro i h1 h2
    simp only [env496, beq_eq_false_iff_ne]
    omega)]
  rw [ok_bind]
  rw [write_lit env496 64 320 384 _ _ hl2 (by norm_num) (by
    intro i h1 h2
    simp only [env496, beq_eq_false_iff_ne]
    omega)]
  rw [ok_bind]
  rw [write_lit env496 384 112 496 _ _ hl3 (by norm_num) (by
    intro i h1 h2
    simp only [env496, beq_eq_false_iff_ne]
    omega)]
  rw [ok_bind]
  rw [pad_fail_lit env496 496 3600 4096 _ (by rfl) (by norm_num) (by norm_num)]
  rw [show cex5 = [⟨[120], [55]⟩] from rfl, List.foldlM_cons]
  rw [write_bad_lit env496 4096 1 4097 _ [55] (by rfl) (by norm_num)]
  rw [error_bind]
  rfl


/-- C1: writeEntries appends exactly one symbol per entry, in input
order, each with binding Global, type Function, section index Text,
address equal to the Text base plus the lengths of all preceding
entries' code, and size equal to that entry's code length; the computed
Text size equals the sum of all entries' code lengths. -/
theorem claim_C1_symbols (entries : List CodeEntry) (h : small entries) :
    symsOf (buildObject entries) =
      some (Symbol.null :: symsC 1 kTextStartAddress entries) ∧
    (Symbol.null :: symsC 1 kTextStartAddress entries).length =
      entries.length + 1 ∧
    (∀ i, i < entries.length →
      (symsC 1 kTextStartAddress entries).getD i Symbol.null =
        { name_offset := 1 + nameBytesLen (entries.take i)
          info := kGlobal ||| kFunc
          section_index := SectionIdx.raw .Text
          address := kTextStartAddress + sumLen (entries.take i)
          size := ((entries.getD i CodeEntry.nil).code).length }) ∧
    (sectionOf .Text (buildObject entries)).map SectionHeader.size =
      some (sumLen entries) := by
  rw [buildObject_spec entries h]
  refine ⟨?_, ?_, ?_, ?_⟩
  · simp [symsOf, elfC]
  · simp [symsC_length]
  · intro i hi
    rw [symsC_getD entries 1 kTextStartAddress i hi]
  · simp [sectionOf, elfC, Object.getSectionHeader, SectionIdx.raw]

/-- C3: the Text section header has type Program, flags Alloc and
Executable, alignment 16, size equal to the sum of the entries' code
lengths with no internal padding, and file offset equal to its virtual
address, both exactly one page (0x1000) from the file start. -/
theorem claim_C3_text_header (entries : List CodeEntry) (h : small entries) :
    sectionOf .Text (buildObject entries) = some
      { name_offset := 1
        type := kProgram
        flags := kSectionAlloc ||| kSectionExecutable
        address := kTextStartAddress
        offset := kTextStartAddress
        size := sumLen entries
        align := 0x10 } ∧
    kTextStartAddress = 0x1000 := by
  rw [buildObject_spec entries h]
  constructor
  · simp [sectionOf, elfC, Object.getSectionHeader, SectionIdx.raw]
  · rfl

/-- C4 (amended): the addresses of the emitted symbols are
non-decreasing in entry order, and strictly increase when every entry
has non-empty code; a zero-length entry repeats the previous address. -/
theorem claim_C4_addresses (entries : List CodeEntry) (h : small entries) :
    (symsOf (buildObject entries)).map (fun l => (l.drop 1).map Symbol.address)
      = some (addrsC kTextStartAddress entries) ∧
    List.Chain' (fun a b => a ≤ b) (addrsC kTextStartAddress entries) ∧
    ((∀ e ∈ entries, e.code ≠ []) →
      List.Chain' (fun a b => a < b) (addrsC kTextStartAddress entries)) := by
  rw [buildObject_spec entries h]
  refine ⟨?_, addrsC_chain_le entries kTextStartAddress,
    addrsC_chain_lt entries kTextStartAddress⟩
  simp [symsOf, elfC, symsC_map_address]

/-- C4 (counterexample): with two zero-length entries the two emitted
symbols share the address 0x1000, so the addresses do not strictly
increase. -/
theorem claim_C4_counterexample :
    (symsOf (buildObject [⟨[97], []⟩, ⟨[98], []⟩])).map
        (fun l => (l.drop 1).map Symbol.address) = some [4096, 4096] ∧
    ¬ List.Chain' (fun a b => a < b) [4096, 4096] := by
  constructor
  · rw [buildObject_spec [⟨[97], []⟩, ⟨[98], []⟩] (by decide)]
    rfl
  · simp [List.chain'_cons]

/-- C7: the Dynsym section header has type SymbolTable, flags Alloc and
InfoLink, link the Dynstr section index, info 1, entry size the size of
one Symbol record, and size the serialized symbol-table length. -/
theorem claim_C7_dynsym_header (entries : List CodeEntry) (h : small entries) :
    sectionOf .Dynsym (buildObject entries) = some
      { name_offset := 7
        type := kSymbolTable
        flags := kSectionAlloc ||| kSectionInfoLink
        address := dsOffC entries
        offset := dsOffC entries
        size := kSymbolSize * (entries.length + 1)
        link := SectionIdx.raw .Dynstr
        info := 1
        entry_size := kSymbolSize } ∧
    (symsOf (buildObject entries)).map
        (fun l => (l.flatMap Symbol.serialize).length)
      = some (kSymbolSize * (entries.length + 1)) ∧
    (∀ s : Symbol, (Symbol.serialize s).length = kSymbolSize) := by
  rw [buildObject_spec entries h]
  refine ⟨?_, ?_, ?_⟩
  · simp [sectionOf, elfC, Object.getSectionHeader, SectionIdx.raw]
  · have hb := symtab_bytes_length (Symbol.null :: symsC 1 kTextStartAddress entries)
    simp only [SymbolTable.bytes, List.length_cons, symsC_length] at hb
    simp only [symsOf, Option.map_some', Option.some.injEq]
    exact hb
  · intro s
    simp [Symbol.serialize, leBytes, kSymbolSize]

/-- C8: the Readonly segment header is Loadable with flag Readable, its
offset and address are copied from the Dynsym section, its file and
memory sizes both equal Dynsym.size + Dynstr.size, and building it is
fatal unless Dynsym sits strictly before Dynstr. -/
theorem claim_C8_readonly_segment (entries : List CodeEntry) (h : small entries) :
    segmentOf .Readonly (buildObject entries) = some
      { type := kLoadableSegment
        flags := kSegmentReadable
        offset := dsOffC entries
        address := dsOffC entries
        file_size := kSymbolSize * (entries.length + 1) + (nameBytesLen entries + 1)
        mem_size := kSymbolSize * (entries.length + 1) + (nameBytesLen entries + 1)
        align := 0x1000 } ∧
    (sectionOf .Dynsym (buildObject entries)).map
        (fun s => (s.offset, s.address, s.size)) =
      some (dsOffC entries, dsOffC entries, kSymbolSize * (entries.length + 1)) ∧
    (sectionOf .Dynstr (buildObject entries)).map SectionHeader.size =
      some (nameBytesLen entries + 1) ∧
    (∀ elf2 : Object,
      ¬ (elf2.getSectionHeader .Dynsym).address <
          (elf2.getSectionHeader .Dynstr).address →
      initReadonlySegment elf2 =
        .error "Expecting sections to be in a specific order") := by
  rw [buildObject_spec entries h]
  refine ⟨?_, ?_, ?_, ?_⟩
  · simp [segmentOf, elfC, Object.getSegmentHeader, SegmentIdx.raw]
  · simp [sectionOf, elfC, Object.getSectionHeader, SectionIdx.raw]
  · simp [sectionOf, elfC, Object.getSectionHeader, SectionIdx.raw]
  · intro elf2 h2
    rw [initReadonlySegment]
    have hd : (decide ((elf2.getSectionHeader .Dynsym).address <
        (elf2.getSectionHeader .Dynstr).address)) = false := by
      simpa using h2
    rw [jitCheck, hd]
    rfl

/-- C9: on the empty entry list the Text size is 0, the symbol table
holds only the null symbol, no assertion fails, and the emission
completes on a healthy sink. -/
theorem claim_C9_empty_input :
    buildObject [] = .ok (elfC [], 3600, textPadC []) ∧
    (sectionOf .Text (buildObject [])).map SectionHeader.size = some 0 ∧
    symsOf (buildObject []) = some [Symbol.null] ∧
    isOkW (writeEntries (OStream.init (fun _ => false)) []) = true := by
  have hb := buildObject_spec [] (by decide)
  refine ⟨hb, ?_, ?_, ?_⟩
  · rw [hb]
    rfl
  · rw [hb]
    rfl
  · rw [writeEntries_clean [] (elfC []) 3600 (textPadC [])
      (OStream.init (fun _ => false)) hb rfl (fun i => rfl)]
    rfl


/-- C2: on a healthy sink, the emitted byte stream is exactly: file
header, section-header table (5 entries, Null all-zero), segment-header
table (2 entries), the header padding, the concatenated code bytes in
input order, the post-Text padding, the symbol table, the symbol names
and the section names — and nothing else. -/
theorem claim_C2_stream (entries : List CodeEntry) (os : OStream)
    (h : small entries) (h0 : os.bad = false) (ho : os.out = [])
    (he : ∀ i, os.env i = false) :
    okOut (writeEntries os entries) = some
      ((elfC entries).file_header.serialize ++
        (elfC entries).section_headers.flatMap SectionHeader.serialize ++
        (elfC entries).segment_headers.flatMap SegmentHeader.serialize ++
        List.replicate 3600 0 ++
        codeBlob entries ++
        List.replicate (textPadC entries) 0 ++
        (elfC entries).dynsym.bytes ++
        (elfC entries).dynstr.bytes ++
        (elfC entries).shstrtab.bytes) ∧
    buildObject entries = .ok (elfC entries, 3600, textPadC entries) ∧
    (elfC entries).section_headers.length = kSectionCount ∧
    (elfC entries).section_headers.getD 0 ({} : SectionHeader) =
      ({} : SectionHeader) ∧
    SectionHeader.serialize ({} : SectionHeader) = List.replicate 64 0 ∧
    (elfC entries).segment_headers.length = kSegmentCount := by
  have hb := buildObject_spec entries h
  refine ⟨?_, hb, rfl, rfl, by decide, rfl⟩
  rw [writeEntries_clean entries (elfC entries) 3600 (textPadC entries)
    os hb h0 he]
  simp only [okOut, putAll, ho, emitStream, List.nil_append,
    List.append_assoc]

/-- C5 (amended): every sink failure is fatal — `writeEntries` returns
success only if the sink reported no failure on any byte attempt it
made (raw-byte writes abort at the write that observes the failure;
zero padding itself is unchecked and a failure there surfaces at the
next raw-byte write, which always exists). -/
theorem claim_C5_failures_fatal (entries : List CodeEntry)
    (os os' : OStream) (h : writeEntries os entries = .ok os') :
    os'.bad = false ∧
      ∀ i, os.attempts ≤ i → i < os'.attempts → os.env i = false := by
  rw [writeEntries] at h
  cases hb : buildObject entries with
  | error m =>
      rw [hb] at h
      rw [emitOrAbort] at h
      exact absurd h (by simp)
  | ok p =>
      rw [hb] at h
      obtain ⟨elf, hp, tp⟩ := p
      rw [emitOrAbort] at h
      obtain ⟨⟨henv, hatt, hclean⟩, hbad⟩ :=
        emitEntries_tracks entries elf hp tp os os' h
      exact ⟨hbad, (hclean hbad).2⟩

set_option maxRecDepth 40000 in
/-- C5 (counterexample): with a sink that first fails on byte attempt
496 — the first byte of the header padding, the 496 header bytes having
succeeded — the operation does not abort at the padding step: it aborts
only at the next raw-byte write, reporting a failed 1-byte write after
4097 byte attempts (496 header bytes + 3600 unchecked padding attempts
+ 1 code byte). -/
theorem claim_C5_counterexample :
    errInfo (writeEntries (OStream.init env496) cex5) =
      some ("Failed to write 1 bytes of ELF output", 4097) ∧
    env496 496 = true ∧
    ((elfC cex5).file_header.serialize ++
      (elfC cex5).section_headers.flatMap SectionHeader.serialize ++
      (elfC cex5).segment_headers.flatMap SegmentHeader.serialize).length
      = 496 := by
  refine ⟨?_, rfl, by decide⟩
  rw [writeEntries_env496]
  rfl

/-- C6: once the cursor passes the fixed header region and is rounded
up to the next page boundary it equals the Text base address, the
recorded padding is their difference, the `JIT_CHECK` passes, and on
any workspace whose cursor differs from the Text base the check is a
fatal structural-invariant error. -/
theorem claim_C6_headers_fit (elf : Object)
    (h : elf.section_offset = kHeaderStopOffset) :
    (alignOffset elf).2.section_offset = kTextStartAddress ∧
    (alignOffset elf).1 = kTextStartAddress - kHeaderStopOffset ∧
    checkHeadersFit (alignOffset elf).2 = .ok () ∧
    (∀ elf2 : Object, elf2.section_offset ≠ kTextStartAddress →
      checkHeadersFit elf2 =
        .error "ELF headers were too big and went past the zeroth page") := by
  have ha : alignUp kHeaderStopOffset = kTextStartAddress := by decide
  have hd : (kTextStartAddress + W - kHeaderStopOffset) % W
      = kTextStartAddress - kHeaderStopOffset := by decide
  refine ⟨?_, ?_, ?_, ?_⟩
  · simp [alignOffset, h, ha]
  · simp [alignOffset, h, ha, hd]
  · simp [checkHeadersFit, jitCheck, alignOffset, h, ha]
  · intro elf2 h2
    have hbeq : (elf2.section_offset == kTextStartAddress) = false :=
      beq_eq_false_iff_ne.mpr h2
    simp [checkHeadersFit, jitCheck, hbeq]

/-- C10: writeEntries is deterministic — two runs on equal entry lists,
each into a fresh sink that never fails, emit identical byte streams;
the output depends on nothing but the entries. -/
theorem claim_C10_deterministic (entries1 entries2 : List CodeEntry)
    (os1 os2 : OStream) (h12 : entries1 = entries2)
    (hb1 : os1.bad = false) (hb2 : os2.bad = false)
    (ho1 : os1.out = []) (ho2 : os2.out = [])
    (he1 : ∀ i, os1.env i = false) (he2 : ∀ i, os2.env i = false) :
    okOut (writeEntries os1 entries1) = okOut (writeEntries os2 entries2) := by
  subst h12
  cases hb : buildObject entries1 with
  | error m =>
      rw [writeEntries, hb, writeEntries, hb]
      rfl
  | ok p =>
      obtain ⟨elf, hp, tp⟩ := p
      rw [writeEntries_clean entries1 elf hp tp os1 hb hb1 he1,
        writeEntries_clean entries1 elf hp tp os2 hb hb2 he2]
      simp [okOut, putAll, ho1, ho2]

theorem claim_C1_symbols_witness :
    small wEntries ∧
    (symsOf (buildObject wEntries) =
      some (Symbol.null :: symsC 1 kTextStartAddress wEntries) ∧
    (Symbol.null :: symsC 1 kTextStartAddress wEntries).length =
      wEntries.length + 1 ∧
    (∀ i, i < wEntries.length →
      (symsC 1 kTextStartAddress wEntries).getD i Symbol.null =
        { name_offset := 1 + nameBytesLen (wEntries.take i)
          info := kGlobal ||| kFunc
          section_index := SectionIdx.raw .Text
          address := kTextStartAddress + sumLen (wEntries.take i)
          size := ((wEntries.getD i CodeEntry.nil).code).length }) ∧
    (sectionOf .Text (buildObject wEntries)).map SectionHeader.size =
      some (sumLen wEntries)) :=
  ⟨by decide, claim_C1_symbols wEntries (by decide)⟩

theorem claim_C2_stream_witness :
    (small wEntries ∧ (OStream.init (fun _ => false)).bad = false ∧
      (OStream.init (fun _ => false)).out = []) ∧
    (okOut (writeEntries (OStream.init (fun _ => false)) wEntries) = some
      ((elfC wEntries).file_header.serialize ++
        (elfC wEntries).section_headers.flatMap SectionHeader.serialize ++
        (elfC wEntries).segment_headers.flatMap SegmentHeader.serialize ++
        List.replicate 3600 0 ++
        codeBlob wEntries ++
        List.replicate (textPadC wEntries) 0 ++
        (elfC wEntries).dynsym.bytes ++
        (elfC wEntries).dynstr.bytes ++
        (elfC wEntries).shstrtab.bytes) ∧
    buildObject wEntries = .ok (elfC wEntries, 3600, textPadC wEntries) ∧
    (elfC wEntries).section_headers.length = kSectionCount ∧
    (elfC wEntries).section_headers.getD 0 ({} : SectionHeader) =
      ({} : SectionHeader) ∧
    SectionHeader.serialize ({} : SectionHeader) = List.replicate 64 0 ∧
    (elfC wEntries).segment_headers.length = kSegmentCount) :=
  ⟨⟨by decide, rfl, rfl⟩,
    claim_C2_stream wEntries (OStream.init (fun _ => false))
      (by decide) rfl rfl (fun i => rfl)⟩

theorem claim_C3_text_header_witness :
    small wEntries ∧
    (sectionOf .Text (buildObject wEntries) = some
      { name_offset := 1
        type := kProgram
        flags := kSectionAlloc ||| kSectionExecutable
        address := kTextStartAddress
        offset := kTextStartAddress
        size := sumLen wEntries
        align := 0x10 } ∧
    kTextStartAddress = 0x1000) :=
  ⟨by decide, claim_C3_text_header wEntries (by decide)⟩

theorem claim_C4_addresses_witness :
    small wEntries ∧
    ((symsOf (buildObject wEntries)).map
        (fun l => (l.drop 1).map Symbol.address)
      = some (addrsC kTextStartAddress wEntries) ∧
    List.Chain' (fun a b => a ≤ b) (addrsC kTextStartAddress wEntries) ∧
    ((∀ e ∈ wEntries, e.code ≠ []) →
      List.Chain' (fun a b => a < b) (addrsC kTextStartAddress wEntries))) :=
  ⟨by decide, claim_C4_addresses wEntries (by decide)⟩

theorem claim_C5_failures_fatal_witness :
    writeEntries (OStream.init (fun _ => false)) [] =
      .ok (putAll (OStream.init (fun _ => false))
        (emitStream (elfC []) 3600 (textPadC []) [])) ∧
    ((putAll (OStream.init (fun _ => false))
        (emitStream (elfC []) 3600 (textPadC []) [])).bad = false ∧
      ∀ i, (OStream.init (fun _ => false)).attempts ≤ i →
        i < (putAll (OStream.init (fun _ => false))
          (emitStream (elfC []) 3600 (textPadC []) [])).attempts →
        (OStream.init (fun _ => false)).env i = false) := by
  have hw : writeEntries (OStream.init (fun _ => false)) [] =
      .ok (putAll (OStream.init (fun _ => false))
        (emitStream (elfC []) 3600 (textPadC []) [])) :=
    writeEntries_clean [] (elfC []) 3600 (textPadC [])
      (OStream.init (fun _ => false)) (buildObject_spec [] (by decide))
      rfl (fun i => rfl)
  exact ⟨hw, claim_C5_failures_fatal [] _ _ hw⟩

theorem claim_C6_headers_fit_witness :
    ({ section_offset := kHeaderStopOffset } : Object).section_offset =
      kHeaderStopOffset ∧
    ((alignOffset { section_offset := kHeaderStopOffset }).2.section_offset =
      kTextStartAddress ∧
    (alignOffset { section_offset := kHeaderStopOffset }).1 =
      kTextStartAddress - kHeaderStopOffset ∧
    checkHeadersFit (alignOffset { section_offset := kHeaderStopOffset }).2 =
      .ok () ∧
    (∀ elf2 : Object, elf2.section_offset ≠ kTextStartAddress →
      checkHeadersFit elf2 =
        .error "ELF headers were too big and went past the zeroth page")) :=
  ⟨rfl, claim_C6_headers_fit _ rfl⟩

theorem claim_C7_dynsym_header_witness :
    small wEntries ∧
    (sectionOf .Dynsym (buildObject wEntries) = some
      { name_offset := 7
        type := kSymbolTable
        flags := kSectionAlloc ||| kSectionInfoLink
        address := dsOffC wEntries
        offset := dsOffC wEntries
        size := kSymbolSize * (wEntries.length + 1)
        link := SectionIdx.raw .Dynstr
        info := 1
        entry_size := kSymbolSize } ∧
    (symsOf (buildObject wEntries)).map
        (fun l => (l.flatMap Symbol.serialize).length)
      = some (kSymbolSize * (wEntries.length + 1)) ∧
    (∀ s : Symbol, (Symbol.serialize s).length = kSymbolSize)) :=
  ⟨by decide, claim_C7_dynsym_header wEntries (by decide)⟩

theorem claim_C8_readonly_segment_witness :
    small wEntries ∧
    (segmentOf .Readonly (buildObject wEntries) = some
      { type := kLoadableSegment
        flags := kSegmentReadable
        offset := dsOffC wEntries
        address := dsOffC wEntries
        file_size := kSymbolSize * (wEntries.length + 1) +
          (nameBytesLen wEntries + 1)
        mem_size := kSymbolSize * (wEntries.length + 1) +
          (nameBytesLen wEntries + 1)
        align := 0x1000 } ∧
    (sectionOf .Dynsym (buildObject wEntries)).map
        (fun s => (s.offset, s.address, s.size)) =
      some (dsOffC wEntries, dsOffC wEntries,
        kSymbolSize * (wEntries.length + 1)) ∧
    (sectionOf .Dynstr (buildObject wEntries)).map SectionHeader.size =
      some (nameBytesLen wEntries + 1) ∧
    (∀ elf2 : Object,
      ¬ (elf2.getSectionHeader .Dynsym).address <
          (elf2.getSectionHeader .Dynstr).address →
      initReadonlySegment elf2 =
        .error "Expecting sections to be in a specific order")) :=
  ⟨by decide, claim_C8_readonly_segment wEntries (by decide)⟩

theorem claim_C10_deterministic_witness :
    (([] : List CodeEntry) = ([] : List CodeEntry)) ∧
    okOut (writeEntries (OStream.init (fun _ => false)) []) =
      okOut (writeEntries (OStream.init (fun _ => false)) []) :=
  ⟨rfl, claim_C10_deterministic [] [] (OStream.init (fun _ => false))
    (OStream.init (fun _ => false)) rfl rfl rfl rfl rfl
    (fun _ => rfl) (fun _ => rfl)⟩

end Elf
